import Mathlib

/-!
Verification development for the bellperson proof-aggregation prover.

Shallow embedding of the code in:
* src/groth16/aggregate/prove.rs  (GIPA challenge derivation, Fiat-Shamir
  hash-input layout, KZG commitment-key opening, transcript polynomials,
  fr_from_u128, the SRS length guard of aggregate_proofs)
* src/gpu/locks.rs                (should_break, the locked-kernel wrapper)
* src/multiexp.rs                 (GPU attempt with CPU fallback)

Field elements are modelled over an abstract commutative ring / field;
group elements, SHA-256 and the serialization of group elements are external
primitives and are modelled abstractly (a hash function parameter, an item
list standing for the concatenated byte serializations).  Panics are
modelled as Option.none, fallible results as Except.
-/

namespace Bellperson

/-! ## Scalar and transcript utilities (src/groth16/aggregate/prove.rs) -/

/-- Loop body of polynomial_evaluation_product_form_from_transcript
(prove.rs lines 511-514): for each remaining transcript element x,
res := res * (1 + x * power_2_zr) and power_2_zr := power_2_zr^2. -/
def productFormGo {F : Type} [CommRing F] : List F → F → F → F
  | [], res, _ => res
  | x :: rest, res, power_2_zr =>
      productFormGo rest (res * (1 + x * power_2_zr)) (power_2_zr * power_2_zr)

/-- polynomial_evaluation_product_form_from_transcript (prove.rs lines
497-517).  The source sets power_2_zr := z * z * r_shift, unconditionally
reads transcript[0] (a panic on the empty slice, modelled as none), squares
power_2_zr, and folds over the remaining elements. -/
def polynomial_evaluation_product_form_from_transcript {F : Type} [CommRing F]
    (transcript : List F) (z r_shift : F) : Option F :=
  match transcript with
  | [] => none
  | t0 :: rest =>
      some (productFormGo rest (1 + t0 * (z * z * r_shift))
        ((z * z * r_shift) * (z * z * r_shift)))

/-- Loop of polynomial_coefficients_from_transcript (prove.rs lines
535-541): at step i, for j in 0..2^i push coefficients[j] * (x * power_2_r),
then square power_2_r.  The reads j < 2^i address the length-2^i prefix
present before the pushes of step i, hence the List.take. -/
def coeffsGo {F : Type} [CommRing F] : List F → Nat → List F → F → List F
  | [], _, coefficients, _ => coefficients
  | x :: rest, i, coefficients, power_2_r =>
      coeffsGo rest (i + 1)
        (coefficients ++ (coefficients.take (2 ^ i)).map (fun c => c * (x * power_2_r)))
        (power_2_r * power_2_r)

/-- polynomial_coefficients_from_transcript (prove.rs lines 531-543):
starts from coefficients = [1] and power_2_r = r_shift. -/
def polynomial_coefficients_from_transcript {F : Type} [CommRing F]
    (transcript : List F) (r_shift : F) : List F :=
  coeffsGo transcript 0 [1] r_shift

/-- Evaluation of a little-endian coefficient vector as a polynomial at a
point (Horner form).  This is the spec-side evaluator used to compare the
two paths of claim C4; no such function exists in src. -/
def evalPoly {F : Type} [CommRing F] : List F → F → F
  | [], _ => 0
  | c :: cs, z => c + z * evalPoly cs z

/-- Mathematical product prod (1 + x_i * q^(2^i)) written with the running
square q; common form both transcript-polynomial paths reduce to. -/
def challengeProd {F : Type} [CommRing F] : List F → F → F
  | [], _ => 1
  | x :: rest, q => (1 + x * q) * challengeProd rest (q * q)

/-- Variant of challengeProd keeping the r-power and the point-power as
separate running squares. -/
def challengeProdPU {F : Type} [CommRing F] : List F → F → F → F
  | [], _, _ => 1
  | x :: rest, p, u => (1 + x * (p * u)) * challengeProdPU rest (p * p) (u * u)

/-- Big-endian interpretation of a byte list, as done by
u128::from_be_bytes in fr_from_u128 (prove.rs line 603). -/
def u128_from_be_bytes (bytes : List Nat) : Nat :=
  bytes.foldl (fun acc b => acc * 256 + b) 0

/-- The prime order of the BLS12-381 scalar field Fr; fr_from_u128 is
instantiated at E::Fr for this curve.  Its representation has four 64-bit
limbs, little-endian limb order. -/
def bls12_381_fr_modulus : Nat :=
  52435875175126190479447740508185965837690552500527637822603658699938581184513

/-- fr_from_u128 (prove.rs lines 600-612): takes the first 16 bytes as a
big-endian u128 (a panic if fewer than 16 bytes are given, modelled as
none), and writes the low 64 bits into limb 0 and the high 64 bits into
limb 1 of an all-zero four-limb representation. -/
def fr_from_u128 (bytes : List Nat) : Option (List Nat) :=
  if 16 ≤ bytes.length then
    some [u128_from_be_bytes (bytes.take 16) % 2 ^ 64,
          u128_from_be_bytes (bytes.take 16) / 2 ^ 64, 0, 0]
  else none

/-! ## Fiat-Shamir challenge derivation (src/groth16/aggregate/prove.rs) -/

/-- One serialized item of a Fiat-Shamir hash input.  bincode appends the
byte serialization of each value to the input vector; since the concrete
serialization of group and field elements is an external primitive, the
hash input is modelled as the ordered list of serialized items.  T is the
target group GT, G is G1, F is the scalar field Fr. -/
inductive HashItem (T G F : Type) where
  | counter (n : Nat)
  | fr (x : F)
  | gt (x : T)
  | g1 (x : G)
deriving DecidableEq

/-- Hash input of a GIPA-TIPP round (prove.rs lines 237-247): the
big-endian counter nonce, the previous challenge, then C_r.0, C_r.1, Z_r,
C_l.0, then — as written at line 246 — C_r.1 a second time, then Z_l. -/
def gipa_tipp_hash_input {T G F : Type} (counter_nonce : Nat) (transcript : F)
    (C_l C_r : T × T) (Z_l Z_r : T) : List (HashItem T G F) :=
  [HashItem.counter counter_nonce, HashItem.fr transcript,
   HashItem.gt C_r.1, HashItem.gt C_r.2, HashItem.gt Z_r,
   HashItem.gt C_l.1, HashItem.gt C_r.2, HashItem.gt Z_l]

/-- The hash-input layout claimed by the spec for a GIPA-TIPP round:
(counter, prev, C_R.0, C_R.1, Z_R, C_L.0, C_L.1, Z_L).  Spec-side
definition, for comparison with gipa_tipp_hash_input. -/
def gipa_tipp_hash_input_spec {T G F : Type} (counter_nonce : Nat) (transcript : F)
    (C_l C_r : T × T) (Z_l Z_r : T) : List (HashItem T G F) :=
  [HashItem.counter counter_nonce, HashItem.fr transcript,
   HashItem.gt C_r.1, HashItem.gt C_r.2, HashItem.gt Z_r,
   HashItem.gt C_l.1, HashItem.gt C_l.2, HashItem.gt Z_l]

/-- Hash input of a GIPA-MIPP round (prove.rs lines 367-374): counter
nonce, previous challenge, TU.0, TU.1, Z_r, Z_l.  The source names the
pair TU (the round computes TU_r and TU_l; TU itself is a stale name). -/
def gipa_mipp_hash_input {T G F : Type} (counter_nonce : Nat) (transcript : F)
    (TU : T × T) (Z_l Z_r : G) : List (HashItem T G F) :=
  [HashItem.counter counter_nonce, HashItem.fr transcript,
   HashItem.gt TU.1, HashItem.gt TU.2,
   HashItem.g1 Z_r, HashItem.g1 Z_l]

/-- The challenge loop shared by gipa_tipp (prove.rs lines 236-258) and
gipa_mipp (lines 365-385).  cand n is the candidate field element obtained
for counter_nonce = n, i.e. fr_from_u128 applied to the SHA-256 digest of
the hash input for that nonce; Field::inverse returns None exactly on
zero, so the loop retries with counter_nonce + 1 while the candidate is
zero and otherwise breaks with the pair (c_inv, c) = (cand⁻¹, cand),
which the caller binds as (c, c_inv).  fuel bounds the number of
iterations (the Rust loop is unbounded). -/
def challenge_loop {F : Type} [Field F] [DecidableEq F]
    (cand : Nat → F) : Nat → Nat → Option (F × F)
  | 0, _ => none
  | fuel + 1, counter_nonce =>
      if cand counter_nonce = 0 then challenge_loop cand fuel (counter_nonce + 1)
      else some ((cand counter_nonce)⁻¹, cand counter_nonce)

/-- Challenge derivation of a GIPA-TIPP round: the candidate for nonce n
hashes gipa_tipp_hash_input n; hash stands for fr_from_u128 ∘ SHA-256.
The counter starts at 0 (prove.rs line 232). -/
def gipa_tipp_challenge {T G F : Type} [Field F] [DecidableEq F]
    (hash : List (HashItem T G F) → F) (transcript : F)
    (C_l C_r : T × T) (Z_l Z_r : T) (fuel : Nat) : Option (F × F) :=
  challenge_loop
    (fun counter_nonce => hash (gipa_tipp_hash_input counter_nonce transcript C_l C_r Z_l Z_r))
    fuel 0

/-- Challenge derivation of a GIPA-MIPP round (prove.rs lines 361-385),
counter starting at 0. -/
def gipa_mipp_challenge {T G F : Type} [Field F] [DecidableEq F]
    (hash : List (HashItem T G F) → F) (transcript : F)
    (TU : T × T) (Z_l Z_r : G) (fuel : Nat) : Option (F × F) :=
  challenge_loop
    (fun counter_nonce => hash (gipa_mipp_hash_input counter_nonce transcript TU Z_l Z_r))
    fuel 0

/-! ## KZG opening of commitment keys (src/groth16/aggregate/prove.rs) -/

/-- Modelled from the spec: DensePolynomial subtraction (poly.rs is not in
src), specialised to its use at prove.rs lines 469-470, subtracting the
constant polynomial f_v(z) from f_v. -/
def poly_sub_constant {F : Type} [CommRing F] (coeffs : List F) (c : F) : List F :=
  match coeffs with
  | [] => [-c]
  | c0 :: rest => (c0 - c) :: rest

/-- Running values of synthetic division by (X - z), processing the
coefficients from the highest degree down: each value is c + z * previous,
the last one being the remainder. -/
def synth_div_seq {F : Type} [CommRing F] (z : F) : List F → F → List F
  | [], _ => []
  | c :: rest, carry => (c + z * carry) :: synth_div_seq z rest (c + z * carry)

/-- Modelled from the spec: exact polynomial division by (X - z)
(poly.rs is not in src; prove.rs line 471 divides by the polynomial
[neg_kzg_challenge, 1]).  Synthetic division; the remainder is dropped. -/
def poly_div_by_linear {F : Type} [CommRing F] (coeffs : List F) (z : F) : List F :=
  ((synth_div_seq z coeffs.reverse 0).dropLast).reverse

/-- Getter over the quotient coefficients (prove.rs lines 478-483): index
i yields coefficient i, or field zero past the quotient's length. -/
def kzg_getter {F : Type} [CommRing F] (quotient : List F) : Nat → F :=
  fun i => quotient.getD i 0

/-- Modelled from the spec: par_multiscalar (multiscalar.rs is not in
src) — the multi-scalar multiplication of the scalars produced by a
getter, over the first len entries of a precomputed table of group
elements.  Scalar multiplication of the group is an external primitive,
passed as smul. -/
def par_multiscalar {F G : Type} [AddCommMonoid G]
    (smul : F → G → G) (scalars : Nat → F) (len : Nat) (table : List G) : G :=
  (List.range len).foldl (fun acc i => acc + smul (scalars i) (table.getD i 0)) 0

/-- prove_commitment_key_kzg_opening (prove.rs lines 445-495): builds the
transcript polynomial, fails with MalformedSrs when srs_powers_len differs
from its coefficient count (modelled as none, like the panic of the
product-form evaluation on an empty transcript), divides
f_v(X) - f_v(z) by (X - z), and returns the two multi-scalar
multiplications of the zero-padded quotient coefficients.  The source
passes srs_powers_alpha_table to BOTH par_multiscalar calls (lines 487 and
492); srs_powers_beta_table is never used. -/
def prove_commitment_key_kzg_opening {F G : Type} [CommRing F] [AddCommMonoid G]
    (smul : F → G → G)
    (srs_powers_alpha_table srs_powers_beta_table : List G) (srs_powers_len : Nat)
    (transcript : List F) (r_shift kzg_challenge : F) : Option (G × G) :=
  if srs_powers_len ≠ (polynomial_coefficients_from_transcript transcript r_shift).length then
    none
  else
    match polynomial_evaluation_product_form_from_transcript transcript kzg_challenge r_shift with
    | none => none
    | some vkey_poly_z =>
        let quotient := poly_div_by_linear
          (poly_sub_constant (polynomial_coefficients_from_transcript transcript r_shift)
            vkey_poly_z)
          kzg_challenge
        some (par_multiscalar smul (kzg_getter quotient) srs_powers_len srs_powers_alpha_table,
              par_multiscalar smul (kzg_getter quotient) srs_powers_len srs_powers_alpha_table)

/-! ## SRS length guard of aggregate_proofs (src/groth16/aggregate/prove.rs) -/

/-- The SynthesisError kinds reachable from the embedded fragments. -/
inductive SynthesisErr where
  | MalformedSrs
  | MalformedProofs
deriving DecidableEq

/-- Modelled from the spec: correct_len(n), the predicate that a
commitment key matches the expected batch size (commit.rs is not in
src). -/
def correct_len {A : Type} (key : List A) (n : Nat) : Bool :=
  key.length == n

/-- The commitment-key length guard of aggregate_proofs (prove.rs lines
24-26): the condition is written without negation, so the guard errors
with MalformedSrs when correct_len holds for the VKey or the WKey.  The
source calls the undeclared method correct_ley on vkey; it is read as
correct_len. -/
def aggregate_proofs_srs_check {H K : Type}
    (vkey : List H) (wkey : List K) (num_proofs : Nat) : Except SynthesisErr Unit :=
  if correct_len vkey num_proofs || correct_len wkey num_proofs then
    Except.error SynthesisErr.MalformedSrs
  else
    Except.ok ()

/-! ## GPU mutual exclusion (src/gpu/locks.rs) and multiexp (src/multiexp.rs) -/

/-- Modelled from the spec: the GPU error kinds of the locked-kernel
wrapper (src has no gpu/error.rs; section 7 of the spec lists the kinds).
KernelFailure stands for any other GPU error. -/
inductive GpuError where
  | GpuDisabled
  | GpuTaken
  | KernelUninitialized
  | KernelFailure (code : Nat)
deriving DecidableEq

/-- An OS error returned by a file-lock operation; rawOsError models
std::io::Error::raw_os_error(). -/
structure LockErr where
  rawOsError : Option Int
deriving DecidableEq

/-- PriorityLock::should_break (locks.rs lines 76-92): a priority holder
returns false immediately; otherwise a non-blocking shared acquire of the
priority lock is attempted (its outcome passed as try_lock_shared), and
the result is true exactly when the acquire failed with the OS error code
of fs2::lock_contended_error() (passed as lock_contended_raw); any other
error is logged and ignored. -/
def should_break (priority : Bool) (try_lock_shared : Except LockErr Unit)
    (lock_contended_raw : Option Int) : Bool :=
  if priority then false
  else
    match try_lock_shared with
    | Except.error err => if err.rawOsError = lock_contended_raw then true else false
    | Except.ok _ => false

/-- The abort callback supplied to the kernel constructor by
create_multiexp_kernel (locks.rs lines 128-152): when priority holds the
kernel is built with create_with_abort and the closure should_break(true);
otherwise the kernel is built with create, i.e. with no abort callback at
all (none). -/
def create_multiexp_kernel_abort (priority : Bool) :
    Option (Except LockErr Unit → Option Int → Bool) :=
  if priority then some (fun t c => should_break true t c) else none

/-- Observable lock/kernel operations of the locked-kernel wrapper, in
program order: dropping the kernel and releasing the GPU lock (free,
locks.rs lines 189-197), waiting on the priority lock, taking the GPU
lock and creating a kernel (init, lines 180-187). -/
inductive Event where
  | dropKernel
  | unlockGpu
  | waitPriority (priority : Bool)
  | lockGpu
  | createKernel
deriving DecidableEq

/-- State of a locked-kernel wrapper: the priority flag, the kernel slot
(some id or empty), whether the GPU lock is held, how many kernel
creations were attempted (indexing the creation oracle), and how many
closure calls were made (indexing the closure oracle). -/
structure KernelState where
  priority : Bool
  kernel : Option Nat
  gpuLock : Bool
  attempts : Nat
  calls : Nat

/-- init (locks.rs lines 180-187): when the kernel slot is empty, wait on
the priority lock, take the GPU lock, and create a kernel; create says
whether the n-th creation attempt succeeds. -/
def initK (create : Nat → Bool) (s : KernelState) : KernelState × List Event :=
  match s.kernel with
  | some _ => (s, [])
  | none =>
      ({ s with kernel := if create s.attempts then some s.attempts else none,
                gpuLock := true,
                attempts := s.attempts + 1 },
       [Event.waitPriority s.priority, Event.lockGpu, Event.createKernel])

/-- free (locks.rs lines 189-197): when a kernel is present, drop it and
drop the GPU lock (whose Drop releases the lock). -/
def freeK (s : KernelState) : KernelState × List Event :=
  match s.kernel with
  | some _ => ({ s with kernel := none, gpuLock := false }, [Event.dropKernel, Event.unlockGpu])
  | none => (s, [])

/-- The retry loop of the with method (locks.rs lines 209-225): with an
empty kernel slot return KernelUninitialized; otherwise run the closure
(f n is the outcome of its n-th invocation); on GpuTaken free and
re-init and loop, on any other error return it, on success return the
value.  fuel bounds the number of iterations; none models the unbounded
Rust loop running out of fuel. -/
def withLoop {R : Type} (create : Nat → Bool) (f : Nat → Except GpuError R) :
    Nat → KernelState → Option (Except GpuError R) × List Event
  | 0, _ => (none, [])
  | fuel + 1, s =>
      match s.kernel with
      | none => (some (Except.error GpuError.KernelUninitialized), [])
      | some _ =>
          match f s.calls with
          | Except.error GpuError.GpuTaken =>
              let freed := freeK { s with calls := s.calls + 1 }
              let inited := initK create freed.1
              let next := withLoop create f fuel inited.1
              (next.1, freed.2 ++ (inited.2 ++ next.2))
          | Except.error e => (some (Except.error e), [])
          | Except.ok v => (some (Except.ok v), [])

/-- The state after the free-then-init sequence triggered by a GpuTaken
outcome: the closure call is consumed, the priority lock was re-waited,
the GPU lock re-taken, and a kernel creation attempted. -/
def retryState (create : Nat → Bool) (s : KernelState) : KernelState :=
  { s with calls := s.calls + 1,
           kernel := if create s.attempts then some s.attempts else none,
           gpuLock := true,
           attempts := s.attempts + 1 }

/-- with (locks.rs lines 199-226): when BELLMAN_NO_GPU is set (no_gpu),
return GpuDisabled at once; otherwise init from the fresh wrapper state
(new, lines 172-178) and enter the retry loop. -/
def withKernel {R : Type} (no_gpu priority : Bool) (create : Nat → Bool)
    (f : Nat → Except GpuError R) (fuel : Nat) :
    Option (Except GpuError R) × List Event :=
  if no_gpu then (some (Except.error GpuError.GpuDisabled), [])
  else
    let inited := initK create ⟨priority, none, false, 0, 0⟩
    let res := withLoop create f fuel inited.1
    (res.1, inited.2 ++ res.2)

/-- multiexp (src/multiexp.rs lines 15-47): gpu_attempt is the outcome of
kern.with (none when the retry loop does not return); any Ok value is
returned as the result, and on ANY Err the CPU multi-exponentiation runs
and its result (of the caller-facing error type A) is returned. -/
def multiexp {R A : Type} (gpu_attempt : Option (Except GpuError R))
    (cpu_result : Except A R) : Option (Except A R) :=
  match gpu_attempt with
  | none => none
  | some (Except.ok p) => some (Except.ok p)
  | some (Except.error _) => some cpu_result

/-! ## Concrete instances used for evaluation -/

instance : Fact (Nat.Prime 5) := ⟨by norm_num⟩

/-- A constant candidate hash over ZMod 5, for evaluating the challenge
loop on a concrete input. -/
def constHash : List (HashItem Unit Unit (ZMod 5)) → ZMod 5 :=
  fun _ => 2

/-- Kernel-creation oracle that always succeeds. -/
def c6create : Nat → Bool := fun _ => true

/-- Closure oracle whose first call reports GpuTaken and whose later
calls succeed. -/
def c6f : Nat → Except GpuError Nat :=
  fun n => if n = 0 then Except.error GpuError.GpuTaken else Except.ok 7

/-- Closure oracle that always fails with GpuDisabled. -/
def c6f2 : Nat → Except GpuError Nat :=
  fun _ => Except.error GpuError.GpuDisabled

/-- A wrapper state holding a kernel, one creation attempt made, no
closure call made yet. -/
def c6s : KernelState := ⟨false, some 0, true, 1, 0⟩

/-! ## Helper lemmas -/

lemma evalPoly_append {F : Type} [CommRing F] (a b : List F) (z : F) :
    evalPoly (a ++ b) z = evalPoly a z + z ^ a.length * evalPoly b z := by
  induction a with
  | nil => simp [evalPoly]
  | cons c a ih =>
      simp only [List.cons_append, evalPoly, List.append_eq, ih, List.length_cons, pow_succ]
      ring

lemma evalPoly_map_mul {F : Type} [CommRing F] (l : List F) (k z : F) :
    evalPoly (l.map (fun c => c * k)) z = evalPoly l z * k := by
  induction l with
  | nil => simp [evalPoly]
  | cons c l ih =>
      simp only [List.map_cons, evalPoly, ih]
      ring

lemma productFormGo_eq {F : Type} [CommRing F] (t : List F) :
    ∀ res q : F, productFormGo t res q = res * challengeProd t q := by
  induction t with
  | nil => intro res q; simp [productFormGo, challengeProd]
  | cons x rest ih =>
      intro res q
      simp only [productFormGo, challengeProd, ih]
      ring

lemma challengeProdPU_eq {F : Type} [CommRing F] (t : List F) :
    ∀ p u : F, challengeProdPU t p u = challengeProd t (p * u) := by
  induction t with
  | nil => intro p u; simp [challengeProdPU, challengeProd]
  | cons x rest ih =>
      intro p u
      have h : (p * p) * (u * u) = (p * u) * (p * u) := by ring
      simp only [challengeProdPU, challengeProd, ih, h]

lemma coeffsGo_eval {F : Type} [CommRing F] (w : F) (t : List F) :
    ∀ (i : Nat) (acc : List F) (p : F), acc.length = 2 ^ i →
      evalPoly (coeffsGo t i acc p) w = evalPoly acc w * challengeProdPU t p (w ^ 2 ^ i) := by
  induction t with
  | nil =>
      intro i acc p _
      simp [coeffsGo, challengeProdPU]
  | cons x rest ih =>
      intro i acc p h
      have htake : acc.take (2 ^ i) = acc := by
        rw [← h]; exact List.take_length acc
      have hlen : (acc ++ acc.map (fun c => c * (x * p))).length = 2 ^ (i + 1) := by
        simp only [List.length_append, List.length_map, h]
        rw [pow_succ, mul_two]
      simp only [coeffsGo, htake]
      rw [ih (i + 1) _ (p * p) hlen]
      rw [evalPoly_append, evalPoly_map_mul, h]
      have hw : w ^ 2 ^ (i + 1) = w ^ 2 ^ i * w ^ 2 ^ i := by
        have h2 : 2 ^ (i + 1) = 2 ^ i * 2 := by rw [pow_succ]
        rw [h2, pow_mul, pow_two]
      rw [hw]
      simp only [challengeProdPU]
      ring

lemma challenge_loop_spec {F : Type} [Field F] [DecidableEq F] (cand : Nat → F) :
    ∀ (fuel n0 : Nat) (c c_inv : F), challenge_loop cand fuel n0 = some (c, c_inv) →
      ∃ n, n0 ≤ n ∧ cand n ≠ 0 ∧ c = (cand n)⁻¹ ∧ c_inv = cand n ∧
        (∀ m, n0 ≤ m → m < n → cand m = 0) := by
  intro fuel
  induction fuel with
  | zero => intro n0 c c_inv h; simp [challenge_loop] at h
  | succ fuel ih =>
      intro n0 c c_inv h
      by_cases h0 : cand n0 = 0
      · rw [challenge_loop, if_pos h0] at h
        obtain ⟨n, hle, hne, hc, hcinv, hzero⟩ := ih (n0 + 1) c c_inv h
        refine ⟨n, Nat.le_of_succ_le hle, hne, hc, hcinv, ?_⟩
        intro m hm hlt
        rcases Nat.eq_or_lt_of_le hm with heq | hlt2
        · rw [← heq]; exact h0
        · exact hzero m hlt2 hlt
      · rw [challenge_loop, if_neg h0] at h
        refine ⟨n0, Nat.le_refl n0, h0, ?_, ?_, ?_⟩
        · exact (Prod.mk.injEq _ _ _ _ ▸ (Option.some.injEq _ _ ▸ h)).1.symm
        · exact (Prod.mk.injEq _ _ _ _ ▸ (Option.some.injEq _ _ ▸ h)).2.symm
        · intro m hm hlt; exact absurd (Nat.lt_of_le_of_lt hm hlt) (Nat.lt_irrefl n0)

lemma withLoop_never_gpu_taken {R : Type} (create : Nat → Bool)
    (f : Nat → Except GpuError R) :
    ∀ (fuel : Nat) (s : KernelState),
      (withLoop create f fuel s).1 ≠ some (Except.error GpuError.GpuTaken) := by
  intro fuel
  induction fuel with
  | zero => intro s; simp [withLoop]
  | succ n ih =>
      intro s
      cases hk : s.kernel with
      | none => simp [withLoop, hk]
      | some k =>
          cases hf : f s.calls with
          | ok v => simp [withLoop, hk, hf]
          | error e =>
              cases e with
              | GpuTaken =>
                  simp only [withLoop, hk, hf]
                  exact ih _
              | GpuDisabled => simp [withLoop, hk, hf]
              | KernelUninitialized => simp [withLoop, hk, hf]
              | KernelFailure code => simp [withLoop, hk, hf]

lemma u128_fold_bound :
    ∀ (l : List Nat) (acc : Nat), (∀ b ∈ l, b < 256) →
      List.foldl (fun a b => a * 256 + b) acc l < (acc + 1) * 256 ^ l.length := by
  intro l
  induction l with
  | nil => intro acc _; simp
  | cons b l ih =>
      intro acc h
      have hb : b < 256 := h b (List.mem_cons_self b l)
      have h2 : ∀ x ∈ l, x < 256 := fun x hx => h x (List.mem_cons_of_mem b hx)
      calc List.foldl (fun a b => a * 256 + b) acc (b :: l)
          = List.foldl (fun a b => a * 256 + b) (acc * 256 + b) l := rfl
        _ < (acc * 256 + b + 1) * 256 ^ l.length := ih (acc * 256 + b) h2
        _ ≤ ((acc + 1) * 256) * 256 ^ l.length := Nat.mul_le_mul_right _ (by omega)
        _ = (acc + 1) * 256 ^ (b :: l).length := by
              rw [List.length_cons, pow_succ]; ring

lemma u128_from_be_bytes_lt (l : List Nat) (h : ∀ b ∈ l, b < 256) :
    u128_from_be_bytes l < 256 ^ l.length := by
  simpa [u128_from_be_bytes] using u128_fold_bound l 0 h

/-! ## Claim theorems -/

/-- C9: for every byte slice of at least 16 bytes, fr_from_u128 reads the
first 16 bytes as a big-endian unsigned 128-bit integer u and returns the
representation with u mod 2^64 in limb 0, u div 2^64 in limb 1 and limbs
2 and 3 zero; u fits in 128 bits, the two limbs reassemble u, and u is
below the BLS12-381 Fr modulus, so the final canonicalization of the
representation succeeds. -/
theorem fr_from_u128_limbs (bytes : List Nat) (hlen : 16 ≤ bytes.length)
    (hbytes : ∀ b ∈ bytes, b < 256) :
    fr_from_u128 bytes =
      some [u128_from_be_bytes (bytes.take 16) % 2 ^ 64,
            u128_from_be_bytes (bytes.take 16) / 2 ^ 64, 0, 0] ∧
    u128_from_be_bytes (bytes.take 16) < 2 ^ 128 ∧
    u128_from_be_bytes (bytes.take 16) % 2 ^ 64 +
        2 ^ 64 * (u128_from_be_bytes (bytes.take 16) / 2 ^ 64) =
      u128_from_be_bytes (bytes.take 16) ∧
    u128_from_be_bytes (bytes.take 16) < bls12_381_fr_modulus := by
  have htk : (bytes.take 16).length = 16 := by
    rw [List.length_take]; exact Nat.min_eq_left hlen
  have hb : ∀ b ∈ bytes.take 16, b < 256 :=
    fun b hmem => hbytes b (List.take_subset 16 bytes hmem)
  have hlt : u128_from_be_bytes (bytes.take 16) < 2 ^ 128 := by
    have h1 := u128_from_be_bytes_lt (bytes.take 16) hb
    rw [htk] at h1
    have h2 : (256 : Nat) ^ 16 = 2 ^ 128 := by norm_num
    rw [h2] at h1
    exact h1
  refine ⟨?_, hlt, Nat.mod_add_div _ _, ?_⟩
  · rw [fr_from_u128, if_pos hlen]
  · exact Nat.lt_trans hlt (by norm_num [bls12_381_fr_modulus])

/-- Witness for C9 at the concrete 16-byte string 0, 1, ..., 15. -/
theorem fr_from_u128_limbs_witness :
    fr_from_u128 (List.range 16) =
      some [u128_from_be_bytes ((List.range 16).take 16) % 2 ^ 64,
            u128_from_be_bytes ((List.range 16).take 16) / 2 ^ 64, 0, 0] ∧
    u128_from_be_bytes ((List.range 16).take 16) < 2 ^ 128 ∧
    u128_from_be_bytes ((List.range 16).take 16) % 2 ^ 64 +
        2 ^ 64 * (u128_from_be_bytes ((List.range 16).take 16) / 2 ^ 64) =
      u128_from_be_bytes ((List.range 16).take 16) ∧
    u128_from_be_bytes ((List.range 16).take 16) < bls12_381_fr_modulus :=
  fr_from_u128_limbs (List.range 16) (by decide) (by decide)

/-- C10: polynomial_evaluation_product_form_from_transcript reads
transcript[0] unconditionally, so on the empty transcript it panics
(modelled as none) instead of returning the empty product 1, while on
every non-empty transcript it returns a value. -/
theorem product_form_empty_transcript {F : Type} [CommRing F] (z r_shift : F) :
    polynomial_evaluation_product_form_from_transcript ([] : List F) z r_shift = none ∧
    polynomial_evaluation_product_form_from_transcript ([] : List F) z r_shift ≠ some 1 ∧
    ∀ (t0 : F) (rest : List F),
      (polynomial_evaluation_product_form_from_transcript (t0 :: rest) z r_shift).isSome =
        true :=
  ⟨rfl, by simp [polynomial_evaluation_product_form_from_transcript],
   fun _ _ => rfl⟩

/-- C4 counterexample: over ZMod 5 with transcript [1], z = 2 and
r_shift = 1, the product-form evaluator returns 0 while expanding the
coefficients and evaluating them at z = 2 returns 3, so the two paths
differ at the point z. -/
theorem product_form_eval_counterexample :
    polynomial_evaluation_product_form_from_transcript [(1 : ZMod 5)] 2 1 = some 0 ∧
    evalPoly (polynomial_coefficients_from_transcript [(1 : ZMod 5)] 1) 2 = 3 ∧
    polynomial_evaluation_product_form_from_transcript [(1 : ZMod 5)] 2 1 ≠
      some (evalPoly (polynomial_coefficients_from_transcript [(1 : ZMod 5)] 1) 2) := by
  refine ⟨?_, ?_, ?_⟩ <;> decide

/-- C4 (amended): for every non-empty transcript, the product-form
evaluator at z equals the coefficient vector from
polynomial_coefficients_from_transcript evaluated at the point z * z
(the source initialises its running square with z * z * r_shift, so the
polynomial is evaluated at the square of the requested point). -/
theorem product_form_eval_coeffs_at_z_sq {F : Type} [CommRing F]
    (t : List F) (z r_shift : F) (h : t ≠ []) :
    polynomial_evaluation_product_form_from_transcript t z r_shift =
      some (evalPoly (polynomial_coefficients_from_transcript t r_shift) (z * z)) := by
  match t with
  | [] => exact absurd rfl h
  | x :: rest =>
      have hcoeff := coeffsGo_eval (z * z) (x :: rest) 0 [1] r_shift (by simp)
      simp only [polynomial_evaluation_product_form_from_transcript,
        polynomial_coefficients_from_transcript, productFormGo_eq]
      rw [hcoeff]
      simp only [pow_zero, pow_one, challengeProdPU, challengeProdPU_eq, evalPoly]
      congr 1
      have harg : (z * z * r_shift) * (z * z * r_shift)
          = (r_shift * r_shift) * ((z * z) * (z * z)) := by ring
      rw [harg]
      ring

/-- Witness for C4 (amended) at transcript [1], z = 2, r_shift = 1 over
ZMod 5. -/
theorem product_form_eval_coeffs_at_z_sq_witness :
    polynomial_evaluation_product_form_from_transcript [(1 : ZMod 5)] 2 1 =
      some (evalPoly (polynomial_coefficients_from_transcript [(1 : ZMod 5)] 1) (2 * 2)) :=
  product_form_eval_coeffs_at_z_sq [(1 : ZMod 5)] 2 1 (by decide)

/-- C1: in every GIPA round (TIPP and MIPP), an emitted challenge pair is
(c, c_inv) = (digest⁻¹, digest) for the digest obtained at some counter
nonce n, every earlier nonce having produced the non-invertible candidate
zero, and all emitted components are non-zero and invertible in Fr. -/
theorem gipa_challenge_inverse_pair {T G F : Type} [Field F] [DecidableEq F]
    (hash : List (HashItem T G F) → F) (prev : F) (C_l C_r TU : T × T)
    (Z_l Z_r : T) (Zm_l Zm_r : G) (fuel : Nat) (c c_inv cm cm_inv : F)
    (htipp : gipa_tipp_challenge hash prev C_l C_r Z_l Z_r fuel = some (c, c_inv))
    (hmipp : gipa_mipp_challenge hash prev TU Zm_l Zm_r fuel = some (cm, cm_inv)) :
    (∃ n, hash (gipa_tipp_hash_input n prev C_l C_r Z_l Z_r) ≠ 0 ∧
        c = (hash (gipa_tipp_hash_input n prev C_l C_r Z_l Z_r))⁻¹ ∧
        c_inv = hash (gipa_tipp_hash_input n prev C_l C_r Z_l Z_r) ∧
        ∀ m, m < n → hash (gipa_tipp_hash_input m prev C_l C_r Z_l Z_r) = 0) ∧
    (∃ n, hash (gipa_mipp_hash_input n prev TU Zm_l Zm_r) ≠ 0 ∧
        cm = (hash (gipa_mipp_hash_input n prev TU Zm_l Zm_r))⁻¹ ∧
        cm_inv = hash (gipa_mipp_hash_input n prev TU Zm_l Zm_r) ∧
        ∀ m, m < n → hash (gipa_mipp_hash_input m prev TU Zm_l Zm_r) = 0) ∧
    c ≠ 0 ∧ IsUnit c ∧ c_inv ≠ 0 ∧ IsUnit c_inv ∧
    cm ≠ 0 ∧ IsUnit cm ∧ cm_inv ≠ 0 ∧ IsUnit cm_inv := by
  unfold gipa_tipp_challenge at htipp
  unfold gipa_mipp_challenge at hmipp
  obtain ⟨n1, _h1, hne1, hc1, hcinv1, hz1⟩ := challenge_loop_spec _ fuel 0 c c_inv htipp
  obtain ⟨n2, _h2, hne2, hc2, hcinv2, hz2⟩ := challenge_loop_spec _ fuel 0 cm cm_inv hmipp
  have hcne : c ≠ 0 := by rw [hc1]; exact inv_ne_zero hne1
  have hcinvne : c_inv ≠ 0 := by rw [hcinv1]; exact hne1
  have hcmne : cm ≠ 0 := by rw [hc2]; exact inv_ne_zero hne2
  have hcminvne : cm_inv ≠ 0 := by rw [hcinv2]; exact hne2
  exact ⟨⟨n1, hne1, hc1, hcinv1, fun m hm => hz1 m (Nat.zero_le m) hm⟩,
         ⟨n2, hne2, hc2, hcinv2, fun m hm => hz2 m (Nat.zero_le m) hm⟩,
         hcne, isUnit_iff_ne_zero.mpr hcne, hcinvne, isUnit_iff_ne_zero.mpr hcinvne,
         hcmne, isUnit_iff_ne_zero.mpr hcmne, hcminvne, isUnit_iff_ne_zero.mpr hcminvne⟩

/-- Witness for C1: a constant candidate 2 over ZMod 5 makes both the
TIPP and the MIPP loop emit the pair (2⁻¹, 2), whose components are
non-zero units. -/
theorem gipa_challenge_inverse_pair_witness :
    gipa_tipp_challenge constHash (0 : ZMod 5) ((), ()) ((), ()) () () 1 =
      some ((2 : ZMod 5)⁻¹, 2) ∧
    gipa_mipp_challenge constHash (0 : ZMod 5) ((), ()) () () 1 =
      some ((2 : ZMod 5)⁻¹, 2) ∧
    (2 : ZMod 5)⁻¹ ≠ 0 ∧ IsUnit ((2 : ZMod 5)⁻¹) ∧
    (2 : ZMod 5) ≠ 0 ∧ IsUnit (2 : ZMod 5) := by
  have h := gipa_challenge_inverse_pair constHash (0 : ZMod 5) ((), ()) ((), ()) ((), ())
    () () () () 1 ((2 : ZMod 5)⁻¹) 2 ((2 : ZMod 5)⁻¹) 2 rfl rfl
  exact ⟨rfl, rfl, h.2.2.1, h.2.2.2.1, h.2.2.2.2.1, h.2.2.2.2.2.1⟩

/-- C2: the Fiat-Shamir hash input of a GIPA-TIPP round, evaluated at a
concrete round with C_l = (0, 1), C_r = (2, 3), Z_l = 4, Z_r = 5: the
seventh serialized item is the second component of C_r a second time
(prove.rs line 246), not the second component of C_l, so the layout
differs from the claimed (counter, prev, C_R.0, C_R.1, Z_R, C_L.0,
C_L.1, Z_L). -/
theorem gipa_tipp_hash_input_shape :
    gipa_tipp_hash_input (T := Nat) (G := Nat) (F := Nat) 0 0 (0, 1) (2, 3) 4 5 =
      [HashItem.counter 0, HashItem.fr 0, HashItem.gt 2, HashItem.gt 3, HashItem.gt 5,
       HashItem.gt 0, HashItem.gt 3, HashItem.gt 4] ∧
    gipa_tipp_hash_input (T := Nat) (G := Nat) (F := Nat) 0 0 (0, 1) (2, 3) 4 5 ≠
      gipa_tipp_hash_input_spec (T := Nat) (G := Nat) (F := Nat) 0 0 (0, 1) (2, 3) 4 5 :=
  ⟨rfl, by decide⟩

/-- C3: prove_commitment_key_kzg_opening evaluated over ZMod 5 with alpha
table [2, 0] and beta table [3, 0], transcript [1], r_shift 1 and
challenge 1: both components of the opening equal the multi-scalar
multiplication of the quotient against the ALPHA table (the pair
(2, 2)), while the multi-scalar multiplication of the same padded
quotient against the beta table yields 3 ≠ 2. -/
theorem kzg_opening_alpha_table_eval :
    prove_commitment_key_kzg_opening (fun a b : ZMod 5 => a * b)
        [(2 : ZMod 5), 0] [(3 : ZMod 5), 0] 2 [(1 : ZMod 5)] 1 1 = some (2, 2) ∧
    par_multiscalar (fun a b : ZMod 5 => a * b) (kzg_getter [(1 : ZMod 5)]) 2
        [(3 : ZMod 5), 0] = 3 ∧
    (2 : ZMod 5) ≠ 3 := by
  refine ⟨?_, ?_, ?_⟩ <;> decide

/-- C5: the SRS length guard of aggregate_proofs, evaluated concretely:
with both commitment keys of the correct length 2 for 2 proofs it
returns MalformedSrs, and with both key lengths mismatched it succeeds —
the opposite of the claimed criterion. -/
theorem aggregate_srs_check_eval :
    aggregate_proofs_srs_check (List.replicate 2 ()) (List.replicate 2 ()) 2 =
      Except.error SynthesisErr.MalformedSrs ∧
    aggregate_proofs_srs_check [()] [(), (), ()] 2 = Except.ok () :=
  ⟨rfl, rfl⟩

/-- C6: the with method of the locked-kernel wrapper never surfaces
GpuTaken to its caller; a GpuTaken outcome of the closure makes it drop
the kernel and the GPU lock, re-wait the priority lock, re-take the GPU
lock, attempt to re-create the kernel and retry the closure; every other
closure error is returned to the caller as is. -/
theorem locked_kernel_gpu_taken_recovery {R : Type} (create : Nat → Bool)
    (f : Nat → Except GpuError R) :
    (∀ (no_gpu priority : Bool) (fuel : Nat),
        (withKernel no_gpu priority create f fuel).1 ≠
          some (Except.error GpuError.GpuTaken)) ∧
    (∀ (fuel : Nat) (s : KernelState),
        (withLoop create f fuel s).1 ≠ some (Except.error GpuError.GpuTaken)) ∧
    (∀ (fuel : Nat) (s : KernelState) (k : Nat), s.kernel = some k →
        f s.calls = Except.error GpuError.GpuTaken →
        withLoop create f (fuel + 1) s =
          ((withLoop create f fuel (retryState create s)).1,
            Event.dropKernel :: Event.unlockGpu :: Event.waitPriority s.priority ::
              Event.lockGpu :: Event.createKernel ::
                (withLoop create f fuel (retryState create s)).2)) ∧
    (∀ (fuel : Nat) (s : KernelState) (k : Nat) (e : GpuError), s.kernel = some k →
        f s.calls = Except.error e → e ≠ GpuError.GpuTaken →
        withLoop create f (fuel + 1) s = (some (Except.error e), [])) := by
  refine ⟨?_, withLoop_never_gpu_taken create f, ?_, ?_⟩
  · intro no_gpu priority fuel
    by_cases hg : no_gpu
    · simp [withKernel, hg]
    · simp only [withKernel, if_neg hg]
      exact withLoop_never_gpu_taken create f fuel _
  · intro fuel s k hk hf
    simp [withLoop, freeK, initK, retryState, hk, hf]
  · intro fuel s k e hk hf hne
    cases e with
    | GpuTaken => exact absurd rfl hne
    | GpuDisabled => simp [withLoop, hk, hf]
    | KernelUninitialized => simp [withLoop, hk, hf]
    | KernelFailure code => simp [withLoop, hk, hf]

/-- Witness for C6: a wrapper state holding a kernel whose first closure
call reports GpuTaken performs the drop/re-wait/re-lock/re-create/retry
sequence, and a closure failing with GpuDisabled has that error returned
directly. -/
theorem locked_kernel_gpu_taken_recovery_witness :
    withLoop c6create c6f 1 c6s =
      ((withLoop c6create c6f 0 (retryState c6create c6s)).1,
        Event.dropKernel :: Event.unlockGpu :: Event.waitPriority false ::
          Event.lockGpu :: Event.createKernel ::
            (withLoop c6create c6f 0 (retryState c6create c6s)).2) ∧
    withLoop c6create c6f2 1 c6s = (some (Except.error GpuError.GpuDisabled), []) := by
  constructor
  · exact (locked_kernel_gpu_taken_recovery c6create c6f).2.2.1 0 c6s 0 rfl rfl
  · exact (locked_kernel_gpu_taken_recovery c6create c6f2).2.2.2 0 c6s 0
      GpuError.GpuDisabled rfl rfl (by decide)

/-- C7: should_break with priority true is constantly false, and without
priority it returns true exactly when the non-blocking shared acquire
failed with the lock-contended error code; but create_multiexp_kernel
supplies an abort callback only to PRIORITY kernels — the constant-false
should_break(true) — while a normal kernel is built with create, i.e.
with no preemption check at all (none). -/
theorem multiexp_kernel_abort_eval :
    create_multiexp_kernel_abort false = none ∧
    create_multiexp_kernel_abort true = some (fun t c => should_break true t c) ∧
    (∀ (t : Except LockErr Unit) (c : Option Int), should_break true t c = false) ∧
    (∀ (err : LockErr) (c : Option Int),
        should_break false (Except.error err) c = decide (err.rawOsError = c)) ∧
    (∀ (c : Option Int), should_break false (Except.ok ()) c = false) := by
  refine ⟨rfl, rfl, fun t c => rfl, fun err c => ?_, fun c => rfl⟩
  by_cases h : err.rawOsError = c
  · simp [should_break, h]
  · simp [should_break, h]

/-- C8 counterexample: with the GPU attempt failing as GpuDisabled and
the CPU path returning Ok 42, multiexp returns the CPU result Ok 42 — it
falls back to CPU instead of surfacing an error to the caller. -/
theorem multiexp_gpu_disabled_counterexample :
    multiexp (some (Except.error GpuError.GpuDisabled))
        (Except.ok 42 : Except Unit Nat) = some (Except.ok 42) ∧
    some (Except.ok 42 : Except Unit Nat) ≠ some (Except.error ()) :=
  ⟨rfl, by simp⟩

/-- C8 (amended): multiexp returns the CPU-computed result for every GPU
error, GpuDisabled included; only a successful GPU run returns the GPU
value; in particular, with BELLMAN_NO_GPU set the composition with the
locked-kernel wrapper returns the CPU result. -/
theorem multiexp_cpu_fallback_all_errors {R A : Type} :
    (∀ (e : GpuError) (cpu : Except A R),
        multiexp (some (Except.error e)) cpu = some cpu) ∧
    (∀ (p : R) (cpu : Except A R),
        multiexp (some (Except.ok p)) cpu = some (Except.ok p)) ∧
    (∀ (priority : Bool) (create : Nat → Bool) (f : Nat → Except GpuError R)
        (fuel : Nat) (cpu : Except A R),
        multiexp (withKernel true priority create f fuel).1 cpu = some cpu) :=
  ⟨fun _ _ => rfl, fun _ _ => rfl, fun _ _ _ _ _ => rfl⟩

end Bellperson
